import Mathlib

/-!
Verification development for the fastsim eco-approach (coasting) core.

The repository's `src/` tree contains `src/LoadData.py` (the `Cycle` and
`Vehicle` data loaders) and the test suite `fastsim/tests/test_coasting.py`.
The `fastsim.cycle` / `fastsim.simdrive` implementation files exercised by
those tests are not part of `src/`, so the corresponding operations are
modelled from the specification (each such definition carries a
`Modelled from the spec:` doc comment).  Machine floats are modelled by
exact rationals; fallible operations return `Option`.
-/

namespace FastSim

/-- Modelled from the spec: §4.1 forward evaluator `accel_for_constant_jerk`
(the implementation in `fastsim.cycle` is not under `src/`).  Acceleration at
relative step `i` of a constant-jerk maneuver: `a(i) = accel0 + i * jerk * dt`. -/
def accel_for_constant_jerk (i : ℕ) (accel0 jerk dt : ℚ) : ℚ :=
  accel0 + (i : ℚ) * jerk * dt

/-- Modelled from the spec: §4.1 forward evaluator `speed_for_constant_jerk`
(the implementation in `fastsim.cycle` is not under `src/`).  Closed form of
the stepwise integral `v(i) = v0 + sum_(k<i) a(k) * dt`. -/
def speed_for_constant_jerk (i : ℕ) (v0 accel0 jerk dt : ℚ) : ℚ :=
  v0 + (i : ℚ) * accel0 * dt + ((i : ℚ) * ((i : ℚ) - 1) / 2) * jerk * dt ^ 2

/-- Modelled from the spec: §4.1 forward evaluator `dist_for_constant_jerk`
(the implementation in `fastsim.cycle` is not under `src/`).  Closed form of
the trapezoidal integral `d(i) = d0 + sum_(1..i) dt * (v(k-1) + v(k)) / 2`. -/
def dist_for_constant_jerk (i : ℕ) (d0 v0 accel0 jerk dt : ℚ) : ℚ :=
  d0 + (i : ℚ) * v0 * dt + ((i : ℚ) ^ 2 / 2) * accel0 * dt ^ 2
    + ((i : ℚ) * ((i : ℚ) - 1) * (2 * (i : ℚ) - 1) / 12) * jerk * dt ^ 3

/-- Modelled from the spec: §4.1 solver `calc_constant_jerk_trajectory`
(the implementation in `fastsim.cycle` is not under `src/`).  Solves the 2x2
linear system making the closed-form distance and speed at step `n` equal
`dr` and `vr`; degenerate inputs (the system is singular for `n < 2` or a
zero step duration) signal a precondition failure as `none` rather than
dividing by zero. -/
def cjt_jerk (n : ℕ) (d0 v0 dr vr dt : ℚ) : ℚ :=
  12 * ((n : ℚ) * dt * (vr - v0) / 2 - (dr - d0 - (n : ℚ) * v0 * dt)) /
    (dt ^ 3 * (n : ℚ) * ((n : ℚ) - 1) * ((n : ℚ) + 1))

def cjt_accel0 (n : ℕ) (d0 v0 dr vr dt : ℚ) : ℚ :=
  ((vr - v0) - ((n : ℚ) * ((n : ℚ) - 1) / 2) * dt ^ 2 * cjt_jerk n d0 v0 dr vr dt) /
    ((n : ℚ) * dt)

def calc_constant_jerk_trajectory (n : ℕ) (d0 v0 dr vr dt : ℚ) : Option (ℚ × ℚ) :=
  if 2 ≤ n ∧ dt ≠ 0 then
    some (cjt_accel0 n d0 v0 dr vr dt, cjt_jerk n d0 v0 dr vr dt)
  else none

/-- Speed closed form agrees with the stepwise integral of acceleration. -/
lemma speed_eq_sum (i : ℕ) (v0 accel0 jerk dt : ℚ) :
    speed_for_constant_jerk i v0 accel0 jerk dt =
      v0 + ∑ k ∈ Finset.range i, accel_for_constant_jerk k accel0 jerk dt * dt := by
  induction i with
  | zero => simp [speed_for_constant_jerk]
  | succ m ih =>
      rw [Finset.sum_range_succ, ← add_assoc, ← ih]
      simp only [speed_for_constant_jerk, accel_for_constant_jerk]
      push_cast
      ring

/-- Distance closed form agrees with the trapezoidal integral of speed. -/
lemma dist_eq_sum (i : ℕ) (d0 v0 accel0 jerk dt : ℚ) :
    dist_for_constant_jerk i d0 v0 accel0 jerk dt =
      d0 + ∑ k ∈ Finset.range i,
        dt * (speed_for_constant_jerk k v0 accel0 jerk dt
              + speed_for_constant_jerk (k + 1) v0 accel0 jerk dt) / 2 := by
  induction i with
  | zero => simp [dist_for_constant_jerk]
  | succ m ih =>
      rw [Finset.sum_range_succ, ← add_assoc, ← ih]
      simp only [dist_for_constant_jerk, speed_for_constant_jerk]
      push_cast
      ring

/-- Auxiliary round-trip fact for the solver, shared by the claim wrappers:
for `n ≥ 2` and nonzero `dt` the solver succeeds and the forward evaluators
reproduce the requested targets exactly. -/
lemma constant_jerk_roundtrip_aux (n : ℕ) (d0 v0 dr vr dt : ℚ)
    (hn : 2 ≤ n) (hdt : dt ≠ 0) :
    ∃ accel0 jerk,
      calc_constant_jerk_trajectory n d0 v0 dr vr dt = some (accel0, jerk) ∧
      dist_for_constant_jerk n d0 v0 accel0 jerk dt = dr ∧
      speed_for_constant_jerk n v0 accel0 jerk dt = vr := by
  have hN : (2 : ℚ) ≤ (n : ℚ) := by exact_mod_cast hn
  have h0 : (n : ℚ) ≠ 0 := by positivity
  have h1 : (n : ℚ) - 1 ≠ 0 := by
    intro h
    have : (n : ℚ) = 1 := by linarith
    linarith
  have h2 : (n : ℚ) + 1 ≠ 0 := by positivity
  refine ⟨cjt_accel0 n d0 v0 dr vr dt, cjt_jerk n d0 v0 dr vr dt, ?_, ?_, ?_⟩
  · rw [calc_constant_jerk_trajectory, if_pos ⟨hn, hdt⟩]
  · rw [dist_for_constant_jerk, cjt_accel0, cjt_jerk]
    field_simp
    ring
  · rw [speed_for_constant_jerk, cjt_accel0, cjt_jerk]
    field_simp
    ring

/-- C1 (amended): for every step count `n ≥ 2`, step duration `dt > 0` and
arbitrary `d0, v0, dr, vr`, the solver returns a pair `(accel0, jerk)` such
that the forward evaluators at step `n` reproduce `dr` and `vr` exactly.
The original claim asserted this for every `n ≥ 1`, but at `n = 1` the 2x2
system is singular (jerk does not influence step 1), so the solver signals a
precondition failure instead of returning a pair. -/
theorem calc_constant_jerk_trajectory_roundtrip (n : ℕ) (d0 v0 dr vr dt : ℚ)
    (hn : 2 ≤ n) (hdt : 0 < dt) :
    ∃ accel0 jerk,
      calc_constant_jerk_trajectory n d0 v0 dr vr dt = some (accel0, jerk) ∧
      dist_for_constant_jerk n d0 v0 accel0 jerk dt = dr ∧
      speed_for_constant_jerk n v0 accel0 jerk dt = vr :=
  constant_jerk_roundtrip_aux n d0 v0 dr vr dt hn (ne_of_gt hdt)

/-- Counterexample to C1 as stated: at step count `n = 1` (with
`dt = 1 > 0`, `d0 = 0`, `v0 = 0`, `dr = 1`, `vr = 1`) the solver does not
return any `(accel0, jerk)` pair: the linear system is singular at `n = 1`,
and indeed no pair can satisfy both targets since jerk does not affect the
state after one step. -/
theorem calc_constant_jerk_trajectory_n1_counterexample :
    calc_constant_jerk_trajectory 1 0 0 1 1 1 = none := by
  rw [calc_constant_jerk_trajectory, if_neg]
  norm_num

/-- Witness for the round-trip theorem at `n = 3`, `dt = 1`, `d0 = 0`,
`v0 = 0`, `dr = 3`, `vr = 1`: the solver returns `(13/12, -3/4)` and the
forward evaluators reproduce the targets. -/
theorem calc_constant_jerk_trajectory_roundtrip_witness :
    calc_constant_jerk_trajectory 3 0 0 3 1 1 = some (13/12, -3/4) ∧
    dist_for_constant_jerk 3 0 0 (13/12) (-3/4) 1 = 3 ∧
    speed_for_constant_jerk 3 0 (13/12) (-3/4) 1 = 1 := by
  obtain ⟨a0, j, h1, h2, h3⟩ :=
    calc_constant_jerk_trajectory_roundtrip 3 0 0 3 1 1 (by norm_num) (by norm_num)
  have hEval : calc_constant_jerk_trajectory 3 0 0 3 1 1 = some (13/12, -3/4) := by
    rw [calc_constant_jerk_trajectory, if_pos (by norm_num)]
    norm_num [cjt_accel0, cjt_jerk]
  have hp : (a0, j) = ((13/12 : ℚ), (-3/4 : ℚ)) := Option.some.inj (h1.symm.trans hEval)
  have ha : a0 = 13/12 := congrArg Prod.fst hp
  have hj : j = -3/4 := congrArg Prod.snd hp
  rw [ha, hj] at h2 h3
  exact ⟨hEval, h2, h3⟩

/-- Cycle data: equal-length time / speed / grade sequences (spec §3; the
loader lives in `src/LoadData.py`). -/
structure Cycle where
  cycSecs : List ℚ
  cycMps : List ℚ
  cycGrade : List ℚ

/-- Consecutive differences, as `np.diff`: `diff xs = [xs[1]-xs[0], ...]`. -/
def diff (xs : List ℚ) : List ℚ :=
  List.zipWith (fun a b => a - b) xs.tail xs

/-- Per-step durations, from `Cycle.set_dependents` in `src/LoadData.py`:
`secs = np.insert(np.diff(cycSecs), 0, 0)`. -/
def secs (cycSecs : List ℚ) : List ℚ :=
  0 :: diff cycSecs

/-- Modelled from the spec: the v2 (pure trapezoidal) per-step distance array
`cycDistMeters_v2` of `fastsim.cycle` (not under `src/`): entry `0` is `0` and
entry `i ≥ 1` is `secs[i] * (v[i-1] + v[i]) / 2`. -/
def cycDistMeters_v2 (c : Cycle) : List ℚ :=
  0 :: List.zipWith (fun dt p => dt * (p.1 + p.2) / 2)
    (diff c.cycSecs) (c.cycMps.zip c.cycMps.tail)

/-- Cumulative v2 distance through index `i` (the sum of the first `i + 1`
entries of the per-step distance array). -/
def cumDist (c : Cycle) (i : ℕ) : ℚ :=
  ((cycDistMeters_v2 c).take (i + 1)).sum

/-- Modelled from the spec: the overwrite loop inside
`modify_cycle_with_trajectory` of `fastsim.cycle` (not under `src/`).  For
`m = 0, ..., n-1` it sets position `idx + m` of the speed array to the
constant-jerk speed at relative step `m + 1`, clamped at zero from below
(out-of-range writes are dropped, as `List.set` is then the identity). -/
def spliceLoop (mps : List ℚ) (idx : ℕ) (v0 accel0 jerk dt : ℚ) : ℕ → List ℚ
  | 0 => mps
  | m + 1 =>
      (spliceLoop mps idx v0 accel0 jerk dt m).set (idx + m)
        (max 0 (speed_for_constant_jerk (m + 1) v0 accel0 jerk dt))

/-- Modelled from the spec: §4.3 `modify_cycle_with_trajectory` of
`fastsim.cycle` (not under `src/`).  Overwrites
`cycMps[start_index .. start_index + n)` with the constant-jerk speeds
anchored at `v0 = cycMps[start_index - 1]` over steps of duration
`secs[start_index]`, and returns the modified cycle together with the final
achieved speed. -/
def modify_cycle_with_trajectory (c : Cycle) (idx n : ℕ) (jerk accel0 : ℚ) :
    Cycle × ℚ :=
  let v0 := c.cycMps.getD (idx - 1) 0
  let dt := (secs c.cycSecs).getD idx 0
  (⟨c.cycSecs, spliceLoop c.cycMps idx v0 accel0 jerk dt n, c.cycGrade⟩,
   max 0 (speed_for_constant_jerk n v0 accel0 jerk dt))

/-- The splice loop never changes the length of the speed array. -/
lemma spliceLoop_length (mps : List ℚ) (idx : ℕ) (v0 accel0 jerk dt : ℚ) (n : ℕ) :
    (spliceLoop mps idx v0 accel0 jerk dt n).length = mps.length := by
  induction n with
  | zero => rfl
  | succ m ih => rw [spliceLoop, List.length_set, ih]

/-- The splice loop only writes inside the window `[idx, idx + n)`. -/
lemma spliceLoop_getElem?_frame (mps : List ℚ) (idx : ℕ) (v0 accel0 jerk dt : ℚ)
    (n i : ℕ) (hi : i < idx ∨ idx + n ≤ i) :
    (spliceLoop mps idx v0 accel0 jerk dt n)[i]? = mps[i]? := by
  induction n with
  | zero => rfl
  | succ m ih =>
      have hne : idx + m ≠ i := by omega
      rw [spliceLoop, List.getElem?_set_ne hne]
      exact ih (by omega)

/-- Inside the window the splice loop writes the clamped constant-jerk speed. -/
lemma spliceLoop_getElem?_in (mps : List ℚ) (idx : ℕ) (v0 accel0 jerk dt : ℚ)
    (n m : ℕ) (hm : m < n) (hlen : idx + m < mps.length) :
    (spliceLoop mps idx v0 accel0 jerk dt n)[idx + m]? =
      some (max 0 (speed_for_constant_jerk (m + 1) v0 accel0 jerk dt)) := by
  induction n with
  | zero => omega
  | succ k ih =>
      rcases Nat.lt_succ_iff_lt_or_eq.mp hm with h | h
      · have hne : idx + k ≠ idx + m := by omega
        rw [spliceLoop, List.getElem?_set_ne hne]
        exact ih h
      · subst h
        rw [spliceLoop]
        have hlt : idx + m < (spliceLoop mps idx v0 accel0 jerk dt m).length := by
          rw [spliceLoop_length]; exact hlen
        exact List.getElem?_set_eq_of_lt _ hlt

/-- Modelled from the spec: §4.3 `modify_cycle_adding_braking_trajectory` of
`fastsim.cycle` (not under `src/`).  Derives `n = ceil(time_to_stop / dt)`
from the speed at `start_index - 1` under constant deceleration
`brake_accel` (jerk 0), then applies the §4.1 constant-jerk trajectory that
reaches speed 0 after covering the constant-deceleration stopping distance
`0.5 * v0^2 / |brake_accel|` in `n` steps; returns the steps used. -/
def modify_cycle_adding_braking_trajectory (c : Cycle) (brake_accel : ℚ) (idx : ℕ) :
    Cycle × ℕ :=
  let v0 := c.cycMps.getD (idx - 1) 0
  let dt := (secs c.cycSecs).getD idx 0
  let dts := -(v0 * v0) / (2 * brake_accel)
  let tts := -v0 / brake_accel
  let n := (⌈tts / dt⌉).toNat
  match calc_constant_jerk_trajectory n 0 v0 dts 0 dt with
  | none => (c, n)
  | some (accel0, jerk) => ((modify_cycle_with_trajectory c idx n jerk accel0).1, n)

/-- A concrete 1 Hz cycle cruising at 20 m/s (the state of the trapezoidal
test cycle inside its constant-speed region), used to instantiate the
braking-trajectory facts. -/
def cruiseCycle : Cycle :=
  ⟨[0, 1, 2, 3, 4, 5, 6, 7, 8, 9, 10, 11, 12, 13, 14],
   [20, 20, 20, 20, 20, 20, 20, 20, 20, 20, 20, 20, 20, 20, 20],
   [0, 0, 0, 0, 0, 0, 0, 0, 0, 0, 0, 0, 0, 0, 0]⟩

/-- C2: splicing a trajectory of length `n` into a cycle at `start_index ≥ 1`
with `start_index + n` within bounds leaves every speed entry at an index
below `start_index` or at/above `start_index + n` exactly unchanged and
leaves the lengths of the cycle's arrays unchanged (time and grade arrays
are untouched altogether). -/
theorem modify_cycle_with_trajectory_frame (c : Cycle) (idx n : ℕ) (jerk accel0 : ℚ)
    (h1 : 1 ≤ idx) (h2 : idx + n ≤ c.cycMps.length) :
    (∀ i, i < idx ∨ idx + n ≤ i →
      ((modify_cycle_with_trajectory c idx n jerk accel0).1.cycMps)[i]? = c.cycMps[i]?) ∧
    ((modify_cycle_with_trajectory c idx n jerk accel0).1.cycMps).length =
      c.cycMps.length ∧
    (modify_cycle_with_trajectory c idx n jerk accel0).1.cycSecs = c.cycSecs ∧
    (modify_cycle_with_trajectory c idx n jerk accel0).1.cycGrade = c.cycGrade := by
  refine ⟨fun i hi => ?_, ?_, rfl, rfl⟩
  · exact spliceLoop_getElem?_frame _ _ _ _ _ _ _ _ hi
  · exact spliceLoop_length _ _ _ _ _ _ _

/-- Witness for the splicer frame theorem at a concrete cycle. -/
theorem modify_cycle_with_trajectory_frame_witness :
    ((modify_cycle_with_trajectory ⟨[0, 1, 2, 3], [5, 5, 5, 5], [0, 0, 0, 0]⟩
        1 2 0 (-1)).1.cycMps)[0]? = some 5 ∧
    ((modify_cycle_with_trajectory ⟨[0, 1, 2, 3], [5, 5, 5, 5], [0, 0, 0, 0]⟩
        1 2 0 (-1)).1.cycMps).length = 4 := by
  have h := modify_cycle_with_trajectory_frame
    ⟨[0, 1, 2, 3], [5, 5, 5, 5], [0, 0, 0, 0]⟩ 1 2 0 (-1) (by decide) (by decide)
  exact ⟨(h.1 0 (Or.inl (by decide))).trans (by decide), h.2.1.trans (by decide)⟩

/-- C3: on a 1 s-step cycle at speed 20 m/s, adding a braking trajectory at
index 1 with `brake_accel = -2` uses `n = 10` steps whose speeds decrease by
exactly 2 per step down to exactly 0 at offset 10; with
`brake_accel = -7/4` it uses `n = ceil(20 / (7/4)) = 12` steps, the index at
the end of the fractional stop step carries exactly zero speed, no spliced
speed is negative, and the v2 cumulative distance over the 12 spliced steps
is exactly `0.5 * 20^2 / (7/4) = 800/7`. -/
theorem modify_cycle_adding_braking_trajectory_facts :
    ((modify_cycle_adding_braking_trajectory cruiseCycle (-2) 1).2 = 10 ∧
     (∀ k ∈ Finset.range 10,
        (modify_cycle_adding_braking_trajectory cruiseCycle (-2) 1).1.cycMps.getD
          (1 + k) 0 = 20 - 2 * ((k : ℚ) + 1)) ∧
     (modify_cycle_adding_braking_trajectory cruiseCycle (-2) 1).1.cycMps.getD 10 0
       = 0) ∧
    ((modify_cycle_adding_braking_trajectory cruiseCycle (-7/4) 1).2 = 12 ∧
     (modify_cycle_adding_braking_trajectory cruiseCycle (-7/4) 1).1.cycMps.getD 12 0
       = 0 ∧
     (∀ k ∈ Finset.range 12,
        0 ≤ (modify_cycle_adding_braking_trajectory cruiseCycle (-7/4) 1).1.cycMps.getD
          (1 + k) 0) ∧
     (((cycDistMeters_v2
          (modify_cycle_adding_braking_trajectory cruiseCycle (-7/4) 1).1).drop
            1).take 12).sum = 800 / 7) := by
  have htn10 : (Int.toNat 10) = 10 := rfl
  have hsolve10 : calc_constant_jerk_trajectory 10 0 20 100 0 1 = some (-2, 0) := by
    rw [calc_constant_jerk_trajectory, if_pos (by norm_num)]
    norm_num [cjt_accel0, cjt_jerk]
  have hA : modify_cycle_adding_braking_trajectory cruiseCycle (-2) 1
      = ((modify_cycle_with_trajectory cruiseCycle 1 10 0 (-2)).1, 10) := by
    rw [modify_cycle_adding_braking_trajectory]
    simp only [cruiseCycle, secs, diff]
    norm_num [htn10, hsolve10]
  have hB : (modify_cycle_with_trajectory cruiseCycle 1 10 0 (-2)).1
      = ⟨[0, 1, 2, 3, 4, 5, 6, 7, 8, 9, 10, 11, 12, 13, 14],
         [20, 18, 16, 14, 12, 10, 8, 6, 4, 2, 0, 20, 20, 20, 20],
         [0, 0, 0, 0, 0, 0, 0, 0, 0, 0, 0, 0, 0, 0, 0]⟩ := by
    norm_num [modify_cycle_with_trajectory, spliceLoop, speed_for_constant_jerk,
      cruiseCycle, secs, diff]
  have hceil : (⌈(80 / 7 : ℚ)⌉) = 12 := by
    rw [Int.ceil_eq_iff] <;> norm_num
  have htn12 : (Int.toNat 12) = 12 := rfl
  have hsolve12 : calc_constant_jerk_trajectory 12 0 20 (800 / 7) 0 1
      = some (-515/273, 40/1001) := by
    rw [calc_constant_jerk_trajectory, if_pos (by norm_num)]
    norm_num [cjt_accel0, cjt_jerk]
  have hA2 : modify_cycle_adding_braking_trajectory cruiseCycle (-7/4) 1
      = ((modify_cycle_with_trajectory cruiseCycle 1 12 (40/1001) (-515/273)).1,
         12) := by
    rw [modify_cycle_adding_braking_trajectory]
    simp only [cruiseCycle, secs, diff]
    norm_num [hceil, htn12, hsolve12]
  have hB2 : (modify_cycle_with_trajectory cruiseCycle 1 12 (40/1001) (-515/273)).1
      = ⟨[0, 1, 2, 3, 4, 5, 6, 7, 8, 9, 10, 11, 12, 13, 14],
         [20, 4945/273, 48850/3003, 14475/1001, 38120/3003, 4705/429, 9290/1001,
          3275/429, 18100/3003, 4465/1001, 8810/3003, 395/273, 0, 20, 20],
         [0, 0, 0, 0, 0, 0, 0, 0, 0, 0, 0, 0, 0, 0, 0]⟩ := by
    norm_num [modify_cycle_with_trajectory, spliceLoop, speed_for_constant_jerk,
      cruiseCycle, secs, diff]
  refine ⟨⟨?_, ?_, ?_⟩, ?_, ?_, ?_, ?_⟩
  · rw [hA]
  · intro k hk
    rw [hA, hB]
    fin_cases hk <;> norm_num [List.getD]
  · rw [hA, hB]
    norm_num [List.getD]
  · rw [hA2]
  · rw [hA2, hB2]
    norm_num [List.getD]
  · intro k hk
    rw [hA2, hB2]
    fin_cases hk <;> norm_num [List.getD]
  · rw [hA2, hB2]
    norm_num [cycDistMeters_v2, diff]

/-- C8: the forward evaluators satisfy the defining formulas of the spec:
acceleration is `accel0 + i * jerk * dt`; speed is the stepwise integral of
acceleration; distance is the trapezoidal pairing of consecutive speeds. -/
theorem constant_jerk_evaluators_closed_forms (i : ℕ) (d0 v0 accel0 jerk dt : ℚ) :
    accel_for_constant_jerk i accel0 jerk dt = accel0 + (i : ℚ) * jerk * dt ∧
    speed_for_constant_jerk i v0 accel0 jerk dt =
      v0 + ∑ k ∈ Finset.range i, accel_for_constant_jerk k accel0 jerk dt * dt ∧
    dist_for_constant_jerk i d0 v0 accel0 jerk dt =
      d0 + ∑ k ∈ Finset.range i,
        dt * (speed_for_constant_jerk k v0 accel0 jerk dt
              + speed_for_constant_jerk (k + 1) v0 accel0 jerk dt) / 2 :=
  ⟨rfl, speed_eq_sum i v0 accel0 jerk dt, dist_eq_sum i d0 v0 accel0 jerk dt⟩

/-- Tolerance below which a float target speed counts as numerically zero. -/
def stopTol : ℚ := 1 / 1000000

/-- Modelled from the spec: the forward scan inside
`calc_distance_to_next_stop` of `fastsim.cycle` (not under `src/`), over
pairs of (cumulative distance, target speed): the first pair at or beyond
the current distance whose speed is numerically zero yields the remaining
distance; otherwise the scan yields `none`. -/
def nextStopScan (d : ℚ) : List (ℚ × ℚ) → Option ℚ
  | [] => none
  | p :: rest => if |p.2| < stopTol ∧ d ≤ p.1 then some (p.1 - d) else nextStopScan d rest

/-- Running prefix sums of a list, starting from `acc`. -/
def prefixSums (acc : ℚ) : List ℚ → List ℚ
  | [] => []
  | x :: xs => (acc + x) :: prefixSums (acc + x) xs

/-- The cumulative v2 distance at each index of a cycle. -/
def cumDistList (c : Cycle) : List ℚ :=
  prefixSums 0 (cycDistMeters_v2 c)

/-- Modelled from the spec: §4.2(a) `calc_distance_to_next_stop` of
`fastsim.cycle` (not under `src/`): scan forward through the cycle's
cumulative-distance/speed arrays for the next index with numerically zero
target speed and return the remaining distance to it, `none` if no stop
lies ahead. -/
def calc_distance_to_next_stop (d : ℚ) (c : Cycle) : Option ℚ :=
  nextStopScan d ((cumDistList c).zip c.cycMps)

/-- The scan yields `none` exactly when no pair qualifies as a stop ahead. -/
lemma nextStopScan_eq_none_iff (d : ℚ) (ps : List (ℚ × ℚ)) :
    nextStopScan d ps = none ↔ ∀ p ∈ ps, ¬(|p.2| < stopTol ∧ d ≤ p.1) := by
  induction ps with
  | nil => simp [nextStopScan]
  | cons p rest ih =>
      rw [nextStopScan]
      by_cases h : |p.2| < stopTol ∧ d ≤ p.1
      · rw [if_pos h]
        constructor
        · intro hc
          exact Option.noConfusion hc
        · intro hall
          exact absurd h (hall p (List.mem_cons_self p rest))
      · rw [if_neg h, ih]
        constructor
        · intro hall q hq
          rcases List.mem_cons.mp hq with hq1 | hq2
          · rw [hq1]
            exact h
          · exact hall q hq2
        · intro hall q hq
          exact hall q (List.mem_cons_of_mem p hq)

/-- A successful scan returns the remaining distance to the first
qualifying pair: every earlier index does not qualify. -/
lemma nextStopScan_eq_some (d : ℚ) (ps : List (ℚ × ℚ)) (x : ℚ)
    (h : nextStopScan d ps = some x) :
    ∃ i : ℕ, ∃ p : ℚ × ℚ, ps[i]? = some p ∧ (|p.2| < stopTol ∧ d ≤ p.1) ∧ p.1 - d = x ∧
      ∀ j : ℕ, j < i → ∀ q : ℚ × ℚ, ps[j]? = some q → ¬(|q.2| < stopTol ∧ d ≤ q.1) := by
  induction ps with
  | nil => simp [nextStopScan] at h
  | cons p rest ih =>
      by_cases hp : |p.2| < stopTol ∧ d ≤ p.1
      · rw [nextStopScan, if_pos hp] at h
        refine ⟨0, p, List.getElem?_cons_zero, hp, Option.some.inj h, ?_⟩
        intro j hj
        omega
      · rw [nextStopScan, if_neg hp] at h
        obtain ⟨i, q, hq, hcond, hx, hmin⟩ := ih h
        refine ⟨i + 1, q, ?_, hcond, hx, ?_⟩
        · rw [List.getElem?_cons_succ]
          exact hq
        · intro j hj r hr
          cases j with
          | zero =>
              have hrp : r = p := by
                rw [List.getElem?_cons_zero] at hr
                exact (Option.some.inj hr).symm
              rw [hrp]
              exact hp
          | succ j =>
              rw [List.getElem?_cons_succ] at hr
              exact hmin j (by omega) r hr

/-- C5: `calc_distance_to_next_stop` returns `none` exactly when no index at
or beyond the current distance has numerically zero target speed; a returned
value is the cumulative distance of the first such index minus the current
distance; and the absence sentinel is distinct from a returned distance of
zero. -/
theorem calc_distance_to_next_stop_spec (d : ℚ) (c : Cycle) :
    (calc_distance_to_next_stop d c = none ↔
      ∀ p ∈ (cumDistList c).zip c.cycMps, ¬(|p.2| < stopTol ∧ d ≤ p.1)) ∧
    (∀ x, calc_distance_to_next_stop d c = some x →
      ∃ i : ℕ, ∃ p : ℚ × ℚ, ((cumDistList c).zip c.cycMps)[i]? = some p ∧
        (|p.2| < stopTol ∧ d ≤ p.1) ∧ p.1 - d = x ∧
        ∀ j : ℕ, j < i → ∀ q : ℚ × ℚ, ((cumDistList c).zip c.cycMps)[j]? = some q →
          ¬(|q.2| < stopTol ∧ d ≤ q.1)) ∧
    (calc_distance_to_next_stop d c = none →
      calc_distance_to_next_stop d c ≠ some 0) := by
  refine ⟨nextStopScan_eq_none_iff d _, fun x hx => nextStopScan_eq_some d _ x hx, ?_⟩
  intro hnone hsome
  rw [hnone] at hsome
  exact Option.noConfusion hsome

/-- A concrete 1 Hz cycle cruising at 5 m/s for five steps and stopping at
its final index (cumulative distances 0, 5, 10, 15, 20, 22.5). -/
def shortStopCycle : Cycle :=
  ⟨[0, 1, 2, 3, 4, 5], [5, 5, 5, 5, 5, 0], [0, 0, 0, 0, 0, 0]⟩

/-- Witness for the distance-to-next-stop characterization: past the final
stop of the short cycle no stop lies ahead, so the scan returns the absence
sentinel. -/
theorem calc_distance_to_next_stop_spec_witness :
    calc_distance_to_next_stop 23 shortStopCycle = none := by
  refine (calc_distance_to_next_stop_spec 23 shortStopCycle).1.mpr ?_
  norm_num [shortStopCycle, cumDistList, prefixSums, cycDistMeters_v2, diff,
    List.zip, stopTol]

/-- Modelled from the spec: the pure helper `calc_dvdd` of `fastsim.cycle`
(not under `src/`): instantaneous `dv/dd` while coasting, combining the
gravitational grade term `g * (sin th + rrc * cos th)` and the aerodynamic
term `0.5 * rho * CdA * v / mass`, negated because speed decreases.  The
float trigonometry `sin(atan grade)` / `cos(atan grade)` is abstracted by
the function parameters `sinA` and `cosA` (at flat grade they satisfy
`sinA 0 = 0` and `cosA 0 = 1`). -/
def calc_dvdd (sinA cosA : ℚ → ℚ) (v grade mass rho CdA rrc g : ℚ) : ℚ :=
  -((g / v) * (sinA grade + rrc * cosA grade) + (1 / 2) * rho * CdA * v / mass)

/-- Modelled from the spec: the grade-by-distance lookup of §4.2(b),
linearly interpolating parallel breakpoint/value lists. -/
def interp : List ℚ → List ℚ → ℚ → ℚ
  | x0 :: x1 :: xtl, y0 :: y1 :: ytl, x =>
      if x ≤ x0 then y0
      else if x ≤ x1 then y0 + (y1 - y0) * (x - x0) / (x1 - x0)
      else interp (x1 :: xtl) (y1 :: ytl) x
  | _ :: _, y0 :: _, _ => y0
  | _, _, _ => 0

/-- Explicit iteration cap of the coasting-distance integrator (spec §5:
the numerical integrator must have an explicit iteration/distance cap). -/
def MAX_STEPS : ℕ := 2000

/-- Modelled from the spec: the forward integration loop of
`calc_distance_to_stop_coast_v2` of `fastsim.cycle` (not under `src/`).
Steps the ODE `dv/dd = k(v, grade)` forward by `dd = v * dt` per iteration,
interpolating the grade at the current distance.  It stops with the
accumulated distance once the speed reaches `v_brake`, and signals `none`
when the speed fails to decrease across a step, when the distance bound
`dmax` is exceeded, or when the iteration cap runs out. -/
def coast_integrate (sinA cosA : ℚ → ℚ) (v_brake mass rho CdA rrc g dt dmax : ℚ)
    (dists grades : List ℚ) : ℕ → ℚ → ℚ → Option ℚ
  | 0, _, _ => none
  | fuel + 1, d, v =>
      if v ≤ v + calc_dvdd sinA cosA v (interp dists grades d) mass rho CdA rrc g * (v * dt)
      then none
      else if v + calc_dvdd sinA cosA v (interp dists grades d) mass rho CdA rrc g * (v * dt)
          ≤ v_brake
      then some (d + v * dt)
      else if dmax < d + v * dt then none
      else coast_integrate sinA cosA v_brake mass rho CdA rrc g dt dmax dists grades
        fuel (d + v * dt)
        (v + calc_dvdd sinA cosA v (interp dists grades d) mass rho CdA rrc g * (v * dt))

/-- Modelled from the spec: §4.2(b) `calc_distance_to_stop_coast_v2` of
`fastsim.cycle` (not under `src/`).  If the current speed is already at or
below the brake-initiation speed it returns the braking distance from the
current speed (per the repository test
`test_that_distance_to_stop_by_coast_works_as_expected`, which expects
`0.5 * v0^2 / |a_brake|` in this case); otherwise it integrates the
coasting ODE down to `v_brake` and adds the braking distance from
`v_brake`, propagating `none` on failure. -/
def calc_distance_to_stop_coast_v2 (sinA cosA : ℚ → ℚ) (v0 v_brake a_brake : ℚ)
    (distances grades : List ℚ) (mass rho CdA rrc g dt : ℚ) : Option ℚ :=
  if v0 ≤ v_brake then some (-(v0 * v0) / (2 * a_brake))
  else
    match coast_integrate sinA cosA v_brake mass rho CdA rrc g dt
        ((distances.getLast?).getD 0) distances grades MAX_STEPS 0 v0 with
    | none => none
    | some dcoast => some (dcoast + -(v_brake * v_brake) / (2 * a_brake))

/-- Counterexample to C4 as stated: at `v0 = 5 <= v_brake = 15/2` with
`a_brake = -5/2`, the calculator returns the braking distance from the
current speed `v0` (`0.5 * 5^2 / (5/2) = 5`), not the braking distance from
`v_brake` (`0.5 * (15/2)^2 / (5/2) = 45/4`) that the claim asserts. -/
theorem calc_distance_to_stop_coast_v2_edge_counterexample :
    calc_distance_to_stop_coast_v2 (fun _ => 0) (fun _ => 1) 5 (15/2) (-5/2)
      [0, 100000] [0, 0] 1000 (6/5) 1 (1/100) (49/5) 1 = some 5 ∧
    (5 : ℚ) ≠ (1/2) * (15/2) ^ 2 / |(-5/2 : ℚ)| := by
  constructor
  · rw [calc_distance_to_stop_coast_v2, if_pos (by norm_num)]
    norm_num
  · rw [abs_of_neg (by norm_num)]
    norm_num

/-- C4 (amended): for every `v0 ≤ v_brake` (with `a_brake < 0`) the coasting
distance contributed is zero and the calculator returns only a braking
distance, namely the distance to brake from the current speed `v0` to zero,
`0.5 * v0^2 / |a_brake|` (the claim asserted braking from `v_brake`). -/
theorem calc_distance_to_stop_coast_v2_edge (sinA cosA : ℚ → ℚ)
    (v0 v_brake a_brake : ℚ) (distances grades : List ℚ)
    (mass rho CdA rrc g dt : ℚ) (h1 : v0 ≤ v_brake) (h2 : a_brake < 0) :
    calc_distance_to_stop_coast_v2 sinA cosA v0 v_brake a_brake distances grades
      mass rho CdA rrc g dt = some ((1/2) * v0 ^ 2 / |a_brake|) := by
  rw [calc_distance_to_stop_coast_v2, if_pos h1, abs_of_neg h2]
  have hne : a_brake ≠ 0 := ne_of_lt h2
  congr 1
  field_simp
  ring

/-- Witness for the amended C4 edge-case theorem at `v0 = 3`, `v_brake = 4`,
`a_brake = -2`: the calculator returns `0.5 * 9 / 2 = 9/4`. -/
theorem calc_distance_to_stop_coast_v2_edge_witness :
    calc_distance_to_stop_coast_v2 (fun _ => 0) (fun _ => 1) 3 4 (-2)
      [0, 1000] [0, 0] 1000 0 0 0 (49/5) 1 = some (9/4) := by
  have h := calc_distance_to_stop_coast_v2_edge (fun _ => 0) (fun _ => 1) 3 4 (-2)
    [0, 1000] [0, 0] 1000 0 0 0 (49/5) 1 (by norm_num) (by norm_num)
  rw [h]
  congr 1
  rw [abs_of_neg (by norm_num : (-2 : ℚ) < 0)]
  norm_num

/-- C6: the coasting-distance integrator is bounded and stall-detecting:
with the iteration cap exhausted it returns the absence sentinel; whenever
the speed fails to decrease across a step it returns the absence sentinel
immediately; and in the degenerate scenario of the spec (flat grade, zero
drag, zero rolling resistance, so the step never decelerates) the
calculator returns `none` rather than iterating unboundedly (the model
terminates on every input by construction, its loop being structural
recursion on the explicit cap). -/
theorem coast_integrator_bounded_and_stall_detecting :
    (∀ (sinA cosA : ℚ → ℚ) (v_brake mass rho CdA rrc g dt dmax : ℚ)
       (dists grades : List ℚ) (d v : ℚ),
       coast_integrate sinA cosA v_brake mass rho CdA rrc g dt dmax dists grades
         0 d v = none) ∧
    (∀ (sinA cosA : ℚ → ℚ) (v_brake mass rho CdA rrc g dt dmax : ℚ)
       (dists grades : List ℚ) (fuel : ℕ) (d v : ℚ),
       v ≤ v + calc_dvdd sinA cosA v (interp dists grades d) mass rho CdA rrc g * (v * dt) →
       coast_integrate sinA cosA v_brake mass rho CdA rrc g dt dmax dists grades
         (fuel + 1) d v = none) ∧
    (∀ (sinA cosA : ℚ → ℚ) (v0 v_brake a_brake d1 mass g dt : ℚ),
       sinA 0 = 0 → cosA 0 = 1 → v_brake < v0 →
       calc_distance_to_stop_coast_v2 sinA cosA v0 v_brake a_brake [0, d1] [0, 0]
         mass 0 0 0 g dt = none) := by
  refine ⟨fun _ _ _ _ _ _ _ _ _ _ _ _ _ _ => rfl, ?_, ?_⟩
  · intro sinA cosA v_brake mass rho CdA rrc g dt dmax dists grades fuel d v h
    rw [coast_integrate, if_pos h]
  · intro sinA cosA v0 v_brake a_brake d1 mass g dt hsin hcos hlt
    rw [calc_distance_to_stop_coast_v2, if_neg (not_le.mpr hlt)]
    have hint : interp [0, d1] [0, 0] (0 : ℚ) = 0 := by
      rw [interp, if_pos le_rfl]
    have hk : calc_dvdd sinA cosA v0 0 mass 0 0 0 g = 0 := by
      rw [calc_dvdd, hsin]
      ring
    have hloop : coast_integrate sinA cosA v_brake mass 0 0 0 g dt
        (([0, d1] : List ℚ).getLast?.getD 0) [0, d1] [0, 0] MAX_STEPS 0 v0 = none := by
      rw [show MAX_STEPS = 1999 + 1 from rfl, coast_integrate, if_pos (by rw [hint, hk]; ring_nf; exact le_rfl)]
    rw [hloop]

/-- Witness for the integrator theorem: in the degenerate flat/no-drag
scenario with `v0 = 2 > v_brake = 1` the calculator returns `none`. -/
theorem coast_integrator_bounded_and_stall_detecting_witness :
    calc_distance_to_stop_coast_v2 (fun _ => 0) (fun _ => 1) 2 1 (-1) [0, 100] [0, 0]
      1 0 0 0 10 1 = none :=
  coast_integrator_bounded_and_stall_detecting.2.2 (fun _ => 0) (fun _ => 1) 2 1 (-1)
    100 1 10 1 rfl rfl (by norm_num)

/-- Configuration consumed by the coast decision stepper (spec §6):
`coast_start_speed` uses a negative sentinel for auto mode. -/
structure SimParams where
  allow_coast : Bool
  coast_start_speed : ℚ
  coast_to_brake_speed : ℚ
  coast_brake_accel : ℚ
  veh_mass : ℚ
  air_density : ℚ
  CdA : ℚ
  rrc : ℚ
  gravity : ℚ

/-- Step-wise simulation state: the (mutable) cycle, the per-step
coast-imposed flags, and the current step index. -/
structure SimState where
  cyc : Cycle
  impose_coast : List Bool
  i : ℕ

/-- Sets `n` flags to true starting at `idx` (out-of-range writes drop). -/
def setFlags (fs : List Bool) (idx : ℕ) : ℕ → List Bool
  | 0 => fs
  | m + 1 => (setFlags fs idx m).set (idx + m) true

/-- Modelled from the spec: the §4.4 coast trigger condition of the stepper
of `fastsim.simdrive` (not under `src/`): the current speed exceeds the
configured coast-start speed (or that speed is the negative auto sentinel),
and the distance to the next stop is at or below the coast-then-brake
distance needed from the current speed. -/
def coastTrigger (sinA cosA : ℚ → ℚ) (p : SimParams) (st : SimState) : Bool :=
  let v := st.cyc.cycMps.getD (st.i - 1) 0
  let d0 := cumDist st.cyc (st.i - 1)
  let dt := (secs st.cyc.cycSecs).getD st.i 0
  decide (p.coast_start_speed < 0 ∨ p.coast_start_speed < v) &&
    match calc_distance_to_next_stop d0 st.cyc,
        calc_distance_to_stop_coast_v2 sinA cosA v p.coast_to_brake_speed
          p.coast_brake_accel (cumDistList st.cyc) st.cyc.cycGrade p.veh_mass
          p.air_density p.CdA p.rrc p.gravity dt with
    | some dts, some dneed => decide (dts ≤ dneed)
    | _, _ => false

/-- Modelled from the spec: one step of the §4.4 Coast Decision Stepper of
`fastsim.simdrive` (not under `src/`).  With coasting disallowed or at step
0 it only advances.  While already coasting, once the current speed reaches
the brake-initiation speed it splices the braking trajectory at the current
index.  Otherwise, when the coast trigger fires it computes a §4.1
trajectory from the current state to the brake-initiation speed at the
computed distance (the step count, not pinned down by the spec, is modelled
as the time to cover that distance at the average of the two speeds,
rounded up and at least 2), splices it at the current index and records the
coast-imposed flags; on solver failure it leaves the cycle unchanged
(spec §7: failures mean "do not coast this step"). -/
def coast_step (sinA cosA : ℚ → ℚ) (p : SimParams) (st : SimState) : SimState :=
  if st.i = 0 ∨ p.allow_coast = false then { st with i := st.i + 1 }
  else
    let v := st.cyc.cycMps.getD (st.i - 1) 0
    if st.impose_coast.getD st.i false then
      if v ≤ p.coast_to_brake_speed ∧ 0 < v then
        let r := modify_cycle_adding_braking_trajectory st.cyc p.coast_brake_accel st.i
        { cyc := r.1, impose_coast := setFlags st.impose_coast st.i r.2, i := st.i + 1 }
      else { st with i := st.i + 1 }
    else if coastTrigger sinA cosA p st then
      let d0 := cumDist st.cyc (st.i - 1)
      let dt := (secs st.cyc.cycSecs).getD st.i 0
      let dtb := -(p.coast_to_brake_speed * p.coast_to_brake_speed) /
        (2 * p.coast_brake_accel)
      let dts := (calc_distance_to_next_stop d0 st.cyc).getD 0
      let dtbi := dts - dtb
      let n := max 2 (⌈2 * dtbi / ((v + p.coast_to_brake_speed) * dt)⌉.toNat)
      match calc_constant_jerk_trajectory n d0 v (d0 + dtbi)
          p.coast_to_brake_speed dt with
      | none => { st with i := st.i + 1 }
      | some (accel0, jerk) =>
          { cyc := (modify_cycle_with_trajectory st.cyc st.i n jerk accel0).1,
            impose_coast := setFlags st.impose_coast st.i n,
            i := st.i + 1 }
    else { st with i := st.i + 1 }

/-- The flag writer never touches indices below `idx`. -/
lemma setFlags_getElem?_frame (fs : List Bool) (idx : ℕ) (n j : ℕ) (hj : j < idx) :
    (setFlags fs idx n)[j]? = fs[j]? := by
  induction n with
  | zero => rfl
  | succ m ih =>
      have hne : idx + m ≠ j := by omega
      rw [setFlags, List.getElem?_set_ne hne]
      exact ih

/-- The braking splice never touches speed entries below its start index. -/
lemma brake_cycMps_frame (c : Cycle) (a : ℚ) (idx j : ℕ) (hj : j < idx) :
    (modify_cycle_adding_braking_trajectory c a idx).1.cycMps[j]? = c.cycMps[j]? := by
  rw [modify_cycle_adding_braking_trajectory]
  split
  · rfl
  · exact spliceLoop_getElem?_frame _ _ _ _ _ _ _ _ (Or.inl hj)

/-- The braking splice leaves the time array untouched. -/
lemma brake_cycSecs_eq (c : Cycle) (a : ℚ) (idx : ℕ) :
    (modify_cycle_adding_braking_trajectory c a idx).1.cycSecs = c.cycSecs := by
  rw [modify_cycle_adding_braking_trajectory]
  split <;> rfl

/-- The braking splice leaves the grade array untouched. -/
lemma brake_cycGrade_eq (c : Cycle) (a : ℚ) (idx : ℕ) :
    (modify_cycle_adding_braking_trajectory c a idx).1.cycGrade = c.cycGrade := by
  rw [modify_cycle_adding_braking_trajectory]
  split <;> rfl

/-- C7: history is never rewritten: a coast-decision step mutates only the
speed array at indices at/after the current step index and the
coast-imposed flags at such indices; every speed entry and flag at an index
before the current step index is unchanged, the time and grade arrays are
untouched, and the step index advances by one. -/
theorem coast_step_preserves_history (sinA cosA : ℚ → ℚ) (p : SimParams)
    (st : SimState) (j : ℕ) (hj : j < st.i) :
    (coast_step sinA cosA p st).cyc.cycMps[j]? = st.cyc.cycMps[j]? ∧
    (coast_step sinA cosA p st).impose_coast[j]? = st.impose_coast[j]? ∧
    (coast_step sinA cosA p st).cyc.cycSecs = st.cyc.cycSecs ∧
    (coast_step sinA cosA p st).cyc.cycGrade = st.cyc.cycGrade ∧
    (coast_step sinA cosA p st).i = st.i + 1 := by
  rw [coast_step]
  split
  · exact ⟨rfl, rfl, rfl, rfl, rfl⟩
  · dsimp only
    split
    · split
      · exact ⟨brake_cycMps_frame _ _ _ _ hj,
          setFlags_getElem?_frame _ _ _ _ hj,
          brake_cycSecs_eq _ _ _, brake_cycGrade_eq _ _ _, rfl⟩
      · exact ⟨rfl, rfl, rfl, rfl, rfl⟩
    · split
      · split
        · exact ⟨rfl, rfl, rfl, rfl, rfl⟩
        · exact ⟨spliceLoop_getElem?_frame _ _ _ _ _ _ _ _ (Or.inl hj),
            setFlags_getElem?_frame _ _ _ _ hj, rfl, rfl, rfl⟩
      · exact ⟨rfl, rfl, rfl, rfl, rfl⟩

/-- Witness for the history-preservation theorem: a concrete state at step
index 1 keeps its index-0 speed and flag. -/
theorem coast_step_preserves_history_witness :
    (coast_step (fun _ => 0) (fun _ => 1)
      ⟨true, -1, 4, -5/2, 1000, 6/5, 1, 1/100, 49/5⟩
      ⟨cruiseCycle, List.replicate 15 false, 1⟩).cyc.cycMps[0]? =
      cruiseCycle.cycMps[0]? ∧
    (coast_step (fun _ => 0) (fun _ => 1)
      ⟨true, -1, 4, -5/2, 1000, 6/5, 1, 1/100, 49/5⟩
      ⟨cruiseCycle, List.replicate 15 false, 1⟩).impose_coast[0]? =
      (List.replicate 15 false)[0]? := by
  have h := coast_step_preserves_history (fun _ => 0) (fun _ => 1)
    ⟨true, -1, 4, -5/2, 1000, 6/5, 1, 1/100, 49/5⟩
    ⟨cruiseCycle, List.replicate 15 false, 1⟩ 0 (by norm_num)
  exact ⟨h.1, h.2.1⟩

/-- Entry `i` of `np.diff` is the difference of entries `i + 1` and `i`. -/
lemma diff_getD : ∀ (t : List ℚ) (i : ℕ), i + 1 < t.length →
    (diff t).getD i 0 = t.getD (i + 1) 0 - t.getD i 0
  | [], i, h => by simp at h
  | [x], i, h => by simp at h
  | x :: y :: ys, 0, h => by simp [diff, List.getD]
  | x :: y :: ys, i + 1, h => by
      have ih := diff_getD (y :: ys) i (by simpa using h)
      have h1 : (diff (x :: y :: ys)).getD (i + 1) 0 = (diff (y :: ys)).getD i 0 := by
        simp [diff, List.getD]
      have h2 : (x :: y :: ys).getD (i + 2) 0 = (y :: ys).getD (i + 1) 0 := by
        simp [List.getD]
      have h3 : (x :: y :: ys).getD (i + 1) 0 = (y :: ys).getD i 0 := by
        simp [List.getD]
      rw [h1, ih, h2, h3]

/-- C9 (amended): for every nonempty time array, the derived `secs` array of
`Cycle.set_dependents` satisfies `secs[0] = 0`,
`secs[i] = cycSecs[i] - cycSecs[i-1]` for `1 ≤ i < len`, and
`len(secs) = len(cycSecs)`.  The original claim omitted nonemptiness: for an
empty time array `np.insert(np.diff(cycSecs), 0, 0)` still produces the
one-element array `[0]`, so the lengths differ. -/
theorem secs_spec (t : List ℚ) (ht : t ≠ []) :
    (secs t).length = t.length ∧ (secs t).getD 0 0 = 0 ∧
    ∀ i : ℕ, 1 ≤ i → i < t.length →
      (secs t).getD i 0 = t.getD i 0 - t.getD (i - 1) 0 := by
  have hlen : t.length ≠ 0 := fun h => ht (List.length_eq_zero.mp h)
  refine ⟨?_, rfl, ?_⟩
  · rw [secs]
    simp only [List.length_cons, diff, List.length_zipWith, List.length_tail]
    omega
  · intro i h1 h2
    obtain ⟨m, rfl⟩ : ∃ m, i = m + 1 := ⟨i - 1, by omega⟩
    have hcons : (secs t).getD (m + 1) 0 = (diff t).getD m 0 := by
      simp [secs, List.getD]
    rw [hcons, diff_getD t m (by omega)]
    simp

/-- Counterexample to C9 as stated: constructing the derived array from an
empty time array yields `[0]`, whose length 1 differs from the input's
length 0. -/
theorem secs_empty_counterexample :
    secs ([] : List ℚ) = [0] ∧ (secs ([] : List ℚ)).length ≠ ([] : List ℚ).length := by
  constructor
  · rfl
  · simp [secs, diff]

/-- Witness for the per-step-duration theorem on the time array
`[0, 1, 3]`: the derived array has length 3 and entry 2 equals `3 - 1`. -/
theorem secs_spec_witness :
    (secs [(0 : ℚ), 1, 3]).length = 3 ∧ (secs [(0 : ℚ), 1, 3]).getD 2 0 = 2 := by
  have h := secs_spec [(0 : ℚ), 1, 3] (by simp)
  refine ⟨h.1.trans (by norm_num), (h.2.2 2 (by norm_num) (by norm_num)).trans ?_⟩
  norm_num [List.getD]

/-- Vehicle attributes consumed by `Vehicle.set_veh_mass` in
`src/LoadData.py`.  `vehOverrideKg` is an optional float: `none` models a
NaN cell (for which the Python comparison `vehOverrideKg > 0` is False). -/
structure Vehicle where
  vehOverrideKg : Option ℚ
  cargoKg : ℚ
  gliderKg : ℚ
  transKg : ℚ
  compMassMultiplier : ℚ
  maxEssKwh : ℚ
  maxEssKw : ℚ
  essKgPerKwh : ℚ
  essBaseKg : ℚ
  maxMotorKw : ℚ
  mcPeBaseKg : ℚ
  mcPeKgPerKw : ℚ
  maxFuelConvKw : ℚ
  fuelConvKwPerKg : ℚ
  fuelConvBaseKg : ℚ
  maxFuelStorKw : ℚ
  fuelStorKwhPerKg : ℚ
  fuelStorKwh : ℚ

/-- ESS mass from `set_veh_mass`: zero when either ESS rating is zero. -/
def ess_mass_kg (v : Vehicle) : ℚ :=
  if v.maxEssKwh = 0 ∨ v.maxEssKw = 0 then 0
  else (v.maxEssKwh * v.essKgPerKwh + v.essBaseKg) * v.compMassMultiplier

/-- Motor mass from `set_veh_mass`: zero when the motor rating is zero. -/
def mc_mass_kg (v : Vehicle) : ℚ :=
  if v.maxMotorKw = 0 then 0
  else (v.mcPeBaseKg + v.mcPeKgPerKw * v.maxMotorKw) * v.compMassMultiplier

/-- Fuel-converter mass from `set_veh_mass`: zero when its rating is zero. -/
def fc_mass_kg (v : Vehicle) : ℚ :=
  if v.maxFuelConvKw = 0 then 0
  else ((1 / v.fuelConvKwPerKg) * v.maxFuelConvKw + v.fuelConvBaseKg) *
    v.compMassMultiplier

/-- Fuel-storage mass from `set_veh_mass`: zero when its rating is zero. -/
def fs_mass_kg (v : Vehicle) : ℚ :=
  if v.maxFuelStorKw = 0 then 0
  else (1 / v.fuelStorKwhPerKg) * v.fuelStorKwh * v.compMassMultiplier

/-- The Python guard `self.vehOverrideKg > 0` (False on NaN). -/
def overridePos (v : Vehicle) : Bool :=
  match v.vehOverrideKg with
  | some x => decide (0 < x)
  | none => false

/-- Translation of `Vehicle.set_veh_mass` from `src/LoadData.py`: use the
override mass when it is a positive real number, otherwise sum the
component masses. -/
def set_veh_mass (v : Vehicle) : ℚ :=
  if overridePos v then v.vehOverrideKg.getD 0
  else v.cargoKg + v.gliderKg + v.transKg * v.compMassMultiplier +
    ess_mass_kg v + mc_mass_kg v + fc_mass_kg v + fs_mass_kg v

/-- C10: when `vehOverrideKg > 0` the vehicle mass is exactly the override
and component masses are ignored; otherwise (`vehOverrideKg` NaN or
non-positive) the mass is `cargoKg + gliderKg + transKg * compMassMultiplier`
plus the ESS, motor, fuel-converter and fuel-storage masses, each of which
is exactly 0 when its corresponding rating is zero. -/
theorem set_veh_mass_spec :
    (∀ (v : Vehicle) (x : ℚ), v.vehOverrideKg = some x → 0 < x →
      set_veh_mass v = x) ∧
    (∀ v : Vehicle, v.vehOverrideKg = none →
      set_veh_mass v = v.cargoKg + v.gliderKg + v.transKg * v.compMassMultiplier +
        ess_mass_kg v + mc_mass_kg v + fc_mass_kg v + fs_mass_kg v) ∧
    (∀ (v : Vehicle) (x : ℚ), v.vehOverrideKg = some x → x ≤ 0 →
      set_veh_mass v = v.cargoKg + v.gliderKg + v.transKg * v.compMassMultiplier +
        ess_mass_kg v + mc_mass_kg v + fc_mass_kg v + fs_mass_kg v) ∧
    (∀ v : Vehicle, v.maxEssKwh = 0 ∨ v.maxEssKw = 0 → ess_mass_kg v = 0) ∧
    (∀ v : Vehicle, v.maxMotorKw = 0 → mc_mass_kg v = 0) ∧
    (∀ v : Vehicle, v.maxFuelConvKw = 0 → fc_mass_kg v = 0) ∧
    (∀ v : Vehicle, v.maxFuelStorKw = 0 → fs_mass_kg v = 0) := by
  refine ⟨?_, ?_, ?_, ?_, ?_, ?_, ?_⟩
  · intro v x hsome hx
    have hb : overridePos v = true := by
      rw [overridePos, hsome]
      simpa using hx
    rw [set_veh_mass, if_pos hb, hsome]
    rfl
  · intro v hnone
    have hb : overridePos v = false := by
      rw [overridePos, hnone]
    rw [set_veh_mass, if_neg (by rw [hb]; exact Bool.false_ne_true)]
  · intro v x hsome hx
    have hb : overridePos v = false := by
      rw [overridePos, hsome]
      simpa using not_lt.mpr hx
    rw [set_veh_mass, if_neg (by rw [hb]; exact Bool.false_ne_true)]
  · intro v h
    rw [ess_mass_kg, if_pos h]
  · intro v h
    rw [mc_mass_kg, if_pos h]
  · intro v h
    rw [fc_mass_kg, if_pos h]
  · intro v h
    rw [fs_mass_kg, if_pos h]

/-- Witness for the vehicle-mass theorem: a vehicle with a positive
override mass of 1500 kg gets exactly that mass. -/
theorem set_veh_mass_spec_witness :
    set_veh_mass ⟨some 1500, 100, 1000, 100, 6/5, 0, 0, 8, 75, 0, 21, 1, 120,
      2, 61, 100, 9, 50⟩ = 1500 :=
  set_veh_mass_spec.1 ⟨some 1500, 100, 1000, 100, 6/5, 0, 0, 8, 75, 0, 21, 1, 120,
    2, 61, 100, 9, 50⟩ 1500 rfl (by norm_num)

end FastSim
